import Mathlib

/-!
Verification of the iskandar tunnelling system (Go sources) against its
natural-language specification.  The Go code is shallowly embedded: maps
become association lists, goroutine-free pure logic becomes Lean functions,
and the event-driven handlers become functions from an explicit schedule of
channel events to the trace of observable actions they perform.
-/

namespace Iskandar

/-! ## Association-list maps (embedding of Go maps keyed by string) -/

/-- Lookup in an association list; embeds a Go map read `m[k]` returning
`(value, ok)`. -/
def alistLookup {α : Type} : List (String × α) → String → Option α
  | [], _ => none
  | (k2, v) :: rest, k => if k2 = k then some v else alistLookup rest k

/-- Removal of a key; embeds Go `delete(m, k)` (keys are unique in a Go map,
so removing every binding of `k` is the same operation). -/
def alistErase {α : Type} : List (String × α) → String → List (String × α)
  | [], _ => []
  | (k2, v) :: rest, k =>
    if k2 = k then alistErase rest k else (k2, v) :: alistErase rest k

/-- Insertion/overwrite of a key; embeds Go `m[k] = v`. -/
def alistSet {α : Type} (m : List (String × α)) (k : String) (v : α) : List (String × α) :=
  (k, v) :: alistErase m k

/-! ## Request Manager (tunnel-server request_manager, src/unnamed/part_001)

A `MessageChannel` created by `make(MessageChannel, 5)` is modelled by the
`Mailbox` record: its `capacity` field echoes the literal 5 and its `sub`
field records the subdomain passed to the `RegisterRequest` call that
created it (the only attribute of a mailbox the counting invariants
mention).  Closing a channel is modelled by moving it onto the
`closedChannels` list. -/

structure Mailbox where
  capacity : Nat
  sub : String
deriving Repr, DecidableEq

/-- State of `InMemoryRequestManager` (src/unnamed/part_001 lines 122-127):
`requestChannelMap : map[string]MessageChannel`, `requestCounts : map[string]int`
(Go `int` modelled as `Int`), `maxPerTunnel : int`.  `closedChannels` records
the `close(ch)` effects performed by `RemoveRequest`. -/
structure InMemoryRequestManager where
  requestChannelMap : List (String × Mailbox)
  requestCounts : List (String × Int)
  maxPerTunnel : Int
  closedChannels : List (String × Mailbox)
deriving Repr, DecidableEq

/-- `NewInMemoryRequestManager` (lines 129-135). -/
def NewInMemoryRequestManager (maxPerTunnel : Int) : InMemoryRequestManager :=
  ⟨[], [], maxPerTunnel, []⟩

/-- A Go map read `m[k]` on `map[string]int` yields the zero value 0 when the
key is absent. -/
def countsGet (m : List (String × Int)) (k : String) : Int :=
  (alistLookup m k).getD 0

/-- `RegisterRequest` (lines 144-156): fails when
`requestCounts[subdomain] >= maxPerTunnel`; otherwise creates a mailbox of
capacity 5, stores it under `requestId`, and increments the subdomain's
count. -/
def RegisterRequest (s : InMemoryRequestManager) (requestId subdomain : String) :
    Option Mailbox × InMemoryRequestManager :=
  if s.maxPerTunnel ≤ countsGet s.requestCounts subdomain then
    (none, s)
  else
    let requestChannel : Mailbox := ⟨5, subdomain⟩
    (some requestChannel,
      { s with
        requestChannelMap := alistSet s.requestChannelMap requestId requestChannel
        requestCounts := alistSet s.requestCounts subdomain
          (countsGet s.requestCounts subdomain + 1) })

/-- `RemoveRequest` (lines 158-171): if `requestId` has a channel, close it,
delete it from the map, decrement the subdomain's count when positive, and
delete the count entry when it reaches zero; otherwise do nothing. -/
def RemoveRequest (s : InMemoryRequestManager) (requestId subdomain : String) :
    InMemoryRequestManager :=
  match alistLookup s.requestChannelMap requestId with
  | none => s
  | some ch =>
    let s1 : InMemoryRequestManager :=
      { s with
        closedChannels := (requestId, ch) :: s.closedChannels
        requestChannelMap := alistErase s.requestChannelMap requestId }
    let c1 : List (String × Int) :=
      if 0 < countsGet s1.requestCounts subdomain then
        alistSet s1.requestCounts subdomain (countsGet s1.requestCounts subdomain - 1)
      else s1.requestCounts
    let c2 : List (String × Int) :=
      if countsGet c1 subdomain = 0 then alistErase c1 subdomain else c1
    { s1 with requestCounts := c2 }

/-- `GetRequestChannel` (lines 137-142). -/
def GetRequestChannel (s : InMemoryRequestManager) (requestId : String) :
    Option Mailbox :=
  alistLookup s.requestChannelMap requestId

/-- One call on the Request Manager interface (register or remove). -/
inductive RMOp where
  | reg (requestId subdomain : String)
  | rem (requestId subdomain : String)
deriving Repr, DecidableEq

def rmStep (s : InMemoryRequestManager) : RMOp → InMemoryRequestManager
  | .reg requestId subdomain => (RegisterRequest s requestId subdomain).2
  | .rem requestId subdomain => RemoveRequest s requestId subdomain

def rmRun (s : InMemoryRequestManager) : List RMOp → InMemoryRequestManager
  | [] => s
  | op :: ops => rmRun (rmStep s op) ops

/-- The side condition stated by claim C1: every `RemoveRequest` passes the
same subdomain as the matching `RegisterRequest` (the one that created the
live mailbox being removed). -/
def remMatchOk (s : InMemoryRequestManager) : RMOp → Bool
  | .reg _ _ => true
  | .rem requestId subdomain =>
    match alistLookup s.requestChannelMap requestId with
    | none => true
    | some ch => ch.sub == subdomain

/-- The strengthened side condition: additionally, every `RegisterRequest`
passes a request id with no currently live mailbox (fresh ids — true of the
UUIDs the server generates). -/
def rmOpOk (s : InMemoryRequestManager) : RMOp → Bool
  | .reg requestId _ => (alistLookup s.requestChannelMap requestId).isNone
  | .rem requestId subdomain =>
    match alistLookup s.requestChannelMap requestId with
    | none => true
    | some ch => ch.sub == subdomain

def rmTraceOk (p : InMemoryRequestManager → RMOp → Bool) :
    InMemoryRequestManager → List RMOp → Bool
  | _, [] => true
  | s, op :: ops => p s op && rmTraceOk p (rmStep s op) ops

/-- The number of live mailboxes registered under a subdomain. -/
def liveMailboxes (m : List (String × Mailbox)) (sub : String) : Nat :=
  (m.filter (fun kv => kv.2.sub == sub)).length

/-! ### Map lemmas specialised to the Request Manager -/

/-- The keys of a Go map are pairwise distinct. -/
def alistKeysNodup {α : Type} (m : List (String × α)) : Prop :=
  (m.map Prod.fst).Nodup

/-- The invariant behind claim C1: map keys are distinct, and every
per-subdomain count is at most the ceiling and equals the number of live
mailboxes registered under that subdomain. -/
def rmInv (s : InMemoryRequestManager) : Prop :=
  alistKeysNodup s.requestChannelMap ∧
  ∀ sub, countsGet s.requestCounts sub ≤ s.maxPerTunnel ∧
    countsGet s.requestCounts sub = (liveMailboxes s.requestChannelMap sub : Int)

/-! ## Connection Store (capacity-bounded, server binary) -/

/-- Modelled from the spec: the capacity-bounded `InMemoryConnectionStore` of
the server binary — the file defining `ErrMaxTunnelsReached` and the
constructor `NewInMemoryConnectionStore(cfg.MaxTunnels)` called from the
server's `main` and from `handleTunnelConnect` (src/unnamed/part_004 lines
69-79, src/unnamed/part_006 line 27, and the test
`NewInMemoryConnectionStore(10)` in src/unnamed/part_002) — is not among the
provided source files; only the earlier unbounded tunnel-server store
(src/tunnel-server/connection_store.go) is.  Per spec §4.2 the store is a
capacity-bounded map from subdomain key to the safe channel wrapper:
`register` fails with `MaxTunnels` when the live count equals the configured
ceiling and otherwise inserts under a freshly allocated key; `remove` is
idempotent.  Connections are abstracted to numeric identifiers, and the
RNG-allocated key is passed as an argument. -/
structure InMemoryConnectionStore where
  connMap : List (String × Nat)
  maxTunnels : Nat
deriving Repr, DecidableEq

def NewInMemoryConnectionStore (maxTunnels : Nat) : InMemoryConnectionStore :=
  ⟨[], maxTunnels⟩

/-- Modelled from the spec: `RegisterConnection` of the bounded store.
Returns `none` for the `ErrMaxTunnelsReached` failure. -/
def RegisterConnection (s : InMemoryConnectionStore) (subdomainKey : String)
    (conn : Nat) : Option String × InMemoryConnectionStore :=
  if s.connMap.length = s.maxTunnels then
    (none, s)
  else
    (some subdomainKey, { s with connMap := alistSet s.connMap subdomainKey conn })

/-- Modelled from the spec: `RemoveConnection` deletes the key (idempotent,
matching the in-src unbounded variant as well). -/
def RemoveConnection (s : InMemoryConnectionStore) (subdomainKey : String) :
    InMemoryConnectionStore :=
  { s with connMap := alistErase s.connMap subdomainKey }

inductive CSOp where
  | reg (subdomainKey : String) (conn : Nat)
  | rem (subdomainKey : String)
deriving Repr, DecidableEq

def csStep (s : InMemoryConnectionStore) : CSOp → InMemoryConnectionStore
  | .reg subdomainKey conn => (RegisterConnection s subdomainKey conn).2
  | .rem subdomainKey => RemoveConnection s subdomainKey

def csRun (s : InMemoryConnectionStore) : List CSOp → InMemoryConnectionStore
  | [] => s
  | op :: ops => csRun (csStep s op) ops

/-! ## Protocol messages and the Public Request Handler's streaming path -/

/-- Modelled from the spec: the wire struct `protocol.Message` lives in the
`shared/protocol` package, which is not among the provided sources; its shape
is spec §3 plus the fields every provided file reads and writes (`Type`,
`Id`, `Method`, `Path`, `Status`, `Headers`, `Body`, `Done`).  Field defaults
are the Go zero values; the byte-slice body is modelled as a string. -/
structure Message where
  type : String := ""
  id : String := ""
  method : String := ""
  path : String := ""
  status : Nat := 0
  headers : List (String × String) := []
  body : String := ""
  done : Bool := false
deriving Repr, DecidableEq

/-- One resolution of a wait on the mailbox channel inside the handler's
`select`: a fragment arrives, the channel is closed, or the 30-second
`time.After` timer fires first. -/
inductive Ev where
  | msg (m : Message)
  | closed
  | timeout
deriving Repr, DecidableEq

/-- Observable actions of the Public Request Handler, in program order:
receiving a fragment (or the closed signal) from the mailbox, setting a
response header, writing the status, writing body bytes, flushing, and the
timer firing. -/
inductive Act where
  | read (m : Message)
  | readClosed
  | timedOut
  | setHeader (k v : String)
  | writeStatus (status : Nat)
  | write (body : String)
  | flush
deriving Repr, DecidableEq

/-- The streaming loop `for !response.Done` shared verbatim by both handler
generations (src/unnamed/part_004 lines 206-233 and 416-443): each wait
either receives a fragment (write its body, flush, stop if done), observes
the closed channel (return), or times out (return).  The response writer is
modelled as infallible — the `w.Write` error branches only cut the trace
short on a failing public connection. -/
def wprStream : List Ev → List Act
  | [] => []
  | .timeout :: _ => [.timedOut]
  | .closed :: _ => [.readClosed]
  | .msg m :: evs =>
    .read m :: .write m.body :: .flush :: (if m.done then [] else wprStream evs)

/-- The sendable error values produced by `writeProxiedResponse`. -/
inductive WprErr where
  | tunnelNotResponding
  | timeoutErr (message : String)
deriving Repr, DecidableEq

/-- `IskndrServer.writeProxiedResponse` (src/unnamed/part_004 lines 177-241):
wait for the first fragment; on closed return `TunnelNotRespondingError`; on
timeout return a `TimeoutError`; otherwise copy the fragment's headers onto
the response, write its status, write and flush its body, and stream the
rest.  Returns the performed actions and the error returned to
`handleRequest`. -/
def writeProxiedResponse : List Ev → List Act × Option WprErr
  | [] => ([], none)
  | .timeout :: _ =>
    ([.timedOut], some (.timeoutErr "timeout waiting for tunnel response"))
  | .closed :: _ => ([.readClosed], some .tunnelNotResponding)
  | .msg m :: evs =>
    (.read m :: (m.headers.map fun kv => Act.setHeader kv.1 kv.2) ++
      .writeStatus m.status :: .write m.body :: .flush ::
      (if m.done then [] else wprStream evs), none)

/-- Modelled from the spec: the package `server/internal/errors` (imported as
`cerrors` by src/unnamed/part_004) is not among the provided sources.  Per
the spec's error taxonomy, `TunnelNotRespondingError` is the HTTP-502-class
"tunnel not responding" failure and a first-fragment `TimeoutError` surfaces
as HTTP 504 with body `Timeout waiting for response from tunnel`. -/
def SendableStatusCode : WprErr → Nat
  | .tunnelNotResponding => 502
  | .timeoutErr _ => 504

/-- Modelled from the spec: the `Error()` strings of the two sendable error
types, as the spec's error taxonomy surfaces them. -/
def SendableErrorBody : WprErr → String
  | .tunnelNotResponding => "Tunnel not responding"
  | .timeoutErr _ => "Timeout waiting for response from tunnel"

/-- The error surface of the first-generation `handleRequest`
(src/unnamed/part_004 lines 169-174): a `SendableHTTPError` returned by
`writeProxiedResponse` becomes `http.Error(w, err.Error(), err.StatusCode())`. -/
def handleRequestSurface : Option WprErr → Option (Nat × String)
  | none => none
  | some e => some (SendableStatusCode e, SendableErrorBody e)

/-- The response phase of the second-generation `handleRequest`
(src/unnamed/part_004 lines 387-449), inlined around the same streaming loop:
on a closed channel before any fragment it replies HTTP 500
`Failed to get response from tunnel`; on a first-fragment timeout it replies
HTTP 504 `Timeout waiting for response from tunnel`; otherwise it writes the
first fragment like the first generation and streams.  The second component
is the `http.Error` emitted, if any. -/
def handleRequestRespond : List Ev → List Act × Option (Nat × String)
  | [] => ([], none)
  | .timeout :: _ =>
    ([.timedOut], some (504, "Timeout waiting for response from tunnel"))
  | .closed :: _ => ([.readClosed], some (500, "Failed to get response from tunnel"))
  | .msg m :: evs =>
    (.read m :: (m.headers.map fun kv => Act.setHeader kv.1 kv.2) ++
      .writeStatus m.status :: .write m.body :: .flush ::
      (if m.done then [] else wprStream evs), none)

/-- Trace predicate for claim C3.  Scanning mode `false`: outside a fragment;
a fragment receive switches to mode `true`, which demands that — after any
header/status writes — the fragment's body is written and flushed before
anything else happens (in particular before any further read). -/
def fragScan : Bool → List Act → Bool
  | false, [] => true
  | false, .read _ :: rest => fragScan true rest
  | false, _ :: rest => fragScan false rest
  | true, .setHeader _ _ :: rest => fragScan true rest
  | true, .writeStatus _ :: rest => fragScan true rest
  | true, .write _ :: .flush :: rest => fragScan false rest
  | true, _ => false

/-- Every fragment read in the trace is followed by a write of its body and
a flush before the next mailbox read. -/
def fragReadsOk (t : List Act) : Bool :=
  fragScan false t

/-- `true` iff the action trace never writes an HTTP status. -/
def noStatusWritten (t : List Act) : Bool :=
  t.all fun a =>
    match a with
    | .writeStatus _ => false
    | _ => true

/-! ## Client Request Forwarder (src/iskndr/internal/client/client.go) -/

/-- One result of `res.Body.Read(byteBuffer)`: some bytes with no error, some
(possibly zero) bytes together with `io.EOF`, or a non-EOF read error (whose
accompanying bytes the code never looks at). -/
inductive ReadRes where
  | ok (bytes : String)
  | eof (bytes : String)
  | fail (bytes : String) (e : String)
deriving Repr, DecidableEq

/-- The local origin's answer to the dispatched HTTP request. -/
structure LocalResponse where
  StatusCode : Nat
  Header : List (String × String)
  bodyReads : List ReadRes
deriving Repr, DecidableEq

/-- Outcome of `http.DefaultClient.Do(req)`. -/
inductive DispatchResult where
  | fail (e : String)
  | ok (res : LocalResponse)
deriving Repr, DecidableEq

/-- The body-streaming loop of `IskndrClient.sendResponse`
(src/iskndr/internal/client/client.go lines 93-146): read a chunk; a non-EOF
error before the first chunk emits one terminal 502 fragment, mid-stream it
just stops; a chunk is emitted when it is the first or non-empty, carrying
the origin status and headers on the first fragment and `done = (err == io.EOF)`;
the loop ends on `done` or on EOF.  The websocket write is modelled as
succeeding (its error branch only stops the loop early). -/
def readLoop (res : LocalResponse) (reqId : String) :
    Bool → List ReadRes → List Message
  | _, [] => []
  | firstChunk, r :: rest =>
    match r with
    | .fail _ e =>
      if firstChunk then
        [{ type := "response", id := reqId, status := 502,
           body := "Failed to read response body: " ++ e, done := true }]
      else []
    | .ok bytes =>
      if firstChunk = true ∨ 0 < bytes.length then
        (if firstChunk then
          { type := "response", id := reqId, body := bytes, done := false,
            status := res.StatusCode, headers := res.Header }
        else
          { type := "response", id := reqId, body := bytes, done := false }) ::
          readLoop res reqId false rest
      else readLoop res reqId firstChunk rest
    | .eof bytes =>
      if firstChunk = true ∨ 0 < bytes.length then
        [if firstChunk then
          { type := "response", id := reqId, body := bytes, done := true,
            status := res.StatusCode, headers := res.Header }
        else
          { type := "response", id := reqId, body := bytes, done := true }]
      else []

/-- `IskndrClient.sendResponse` (src/iskndr/internal/client/client.go lines
57-147) from the dispatch call onward: a dispatch failure emits one 502
fragment with a descriptive body (and the zero-value `done`, i.e. `false`);
a successful dispatch streams the origin body through `readLoop`.  The
returned list is the sequence of messages written to the safe websocket. -/
def sendResponse (requestMsg : Message) (dispatch : DispatchResult) :
    List Message :=
  match dispatch with
  | .fail e =>
    [{ type := "response", id := requestMsg.id, status := 502,
       body := "Failed to reach local app: " ++ e }]
  | .ok res => readLoop res requestMsg.id true res.bodyReads

/-! ## Subdomain extraction (Public Request Handler entry) -/

/-- Go's `strings.Split(s, sep)` for the single-character separator used by
`ExtractAssignedSubdomain` (`strings.Split(host, ".")`): splitting the empty
string yields `[""]`, and every separator occurrence starts a new group. -/
def splitOnChar (sep : Char) : List Char → List (List Char)
  | [] => [[]]
  | c :: cs =>
    let r := splitOnChar sep cs
    if c = sep then [] :: r
    else
      match r with
      | [] => [[c]]
      | g :: gs => (c :: g) :: gs

/-- Modelled from the spec: `config.ExtractAssignedSubdomain` of the
`server/internal/config` package (called at src/unnamed/part_004 line 107)
is not among the provided sources; only the older unconditional
`extractAssignedSubdomain` (src/unnamed/part_003 lines 174-177) is.  Per
spec §4.5 it splits the host on `.`; with fewer than two labels it returns
an error (`none`), otherwise the first label. -/
def ExtractAssignedSubdomain (host : String) : Option String :=
  match splitOnChar '.' host.toList with
  | p1 :: _ :: _ => some (String.mk p1)
  | _ => none

/-- The subdomain step of the first-generation `handleRequest`
(src/unnamed/part_004 lines 105-111): an extraction error is answered with
`http.Error(w, "Invalid subdomain", http.StatusBadRequest)`; otherwise the
handler proceeds with the extracted subdomain. -/
def handleRequestSubdomain (host : String) : (Nat × String) ⊕ String :=
  match ExtractAssignedSubdomain host with
  | none => Sum.inl (400, "Invalid subdomain")
  | some sub => Sum.inr sub

/-! ## Lemmas and claim theorems -/

theorem alistLookup_erase {α : Type} (m : List (String × α)) (k j : String) :
    alistLookup (alistErase m k) j = if j = k then none else alistLookup m j := by
  induction m with
  | nil => simp [alistErase, alistLookup]
  | cons kv rest ih =>
    obtain ⟨k2, v⟩ := kv
    by_cases h2 : k2 = k
    · subst h2
      by_cases hj : j = k2
      · subst hj
        simp [alistErase, alistLookup, ih]
      · simp [alistErase, alistLookup, hj, Ne.symm hj, ih]
    · by_cases hj : k2 = j
      · subst hj
        simp [alistErase, alistLookup, h2]
      · simp [alistErase, alistLookup, h2, hj, ih]

theorem alistLookup_set {α : Type} (m : List (String × α)) (k j : String) (v : α) :
    alistLookup (alistSet m k v) j = if j = k then some v else alistLookup m j := by
  by_cases hj : j = k
  · subst hj
    simp [alistSet, alistLookup]
  · simp [alistSet, alistLookup, Ne.symm hj, hj, alistLookup_erase]

theorem alistErase_of_lookup_none {α : Type} (m : List (String × α)) (k : String)
    (h : alistLookup m k = none) : alistErase m k = m := by
  induction m with
  | nil => rfl
  | cons kv rest ih =>
    obtain ⟨k2, v⟩ := kv
    by_cases h2 : k2 = k
    · simp [alistLookup, h2] at h
    · simp [alistLookup, h2] at h
      simp [alistErase, h2, ih h]

theorem countsGet_set (m : List (String × Int)) (k j : String) (v : Int) :
    countsGet (alistSet m k v) j = if j = k then v else countsGet m j := by
  unfold countsGet
  rw [alistLookup_set]
  by_cases hj : j = k <;> simp [hj]

theorem countsGet_erase (m : List (String × Int)) (k j : String) :
    countsGet (alistErase m k) j = if j = k then 0 else countsGet m j := by
  unfold countsGet
  rw [alistLookup_erase]
  by_cases hj : j = k <;> simp [hj]

theorem alistLookup_none_iff {α : Type} (m : List (String × α)) (k : String) :
    alistLookup m k = none ↔ k ∉ m.map Prod.fst := by
  induction m with
  | nil => simp [alistLookup]
  | cons kv rest ih =>
    obtain ⟨k2, v⟩ := kv
    by_cases h2 : k2 = k
    · subst h2
      simp [alistLookup]
    · simp only [alistLookup, if_neg h2, List.map_cons, List.mem_cons]
      rw [ih]
      constructor
      · intro hn hc
        rcases hc with hc | hc
        · exact h2 hc.symm
        · exact hn hc
      · intro hn hc
        exact hn (Or.inr hc)

theorem alistErase_keys_subset {α : Type} (m : List (String × α)) (k : String) :
    ((alistErase m k).map Prod.fst) ⊆ m.map Prod.fst := by
  induction m with
  | nil => simp [alistErase]
  | cons kv rest ih =>
    obtain ⟨k2, v⟩ := kv
    by_cases h2 : k2 = k
    · simp only [alistErase, if_pos h2, List.map_cons]
      exact fun x hx => List.mem_cons_of_mem _ (ih hx)
    · simp only [alistErase, if_neg h2, List.map_cons]
      intro x hx
      rcases List.mem_cons.1 hx with h | h
      · exact List.mem_cons.2 (Or.inl h)
      · exact List.mem_cons.2 (Or.inr (ih h))

theorem alistKeysNodup_erase {α : Type} (m : List (String × α)) (k : String)
    (h : alistKeysNodup m) : alistKeysNodup (alistErase m k) := by
  induction m with
  | nil => exact h
  | cons kv rest ih =>
    obtain ⟨k2, v⟩ := kv
    unfold alistKeysNodup at h ⊢
    simp only [List.map_cons, List.nodup_cons] at h
    by_cases h2 : k2 = k
    · simp only [alistErase, if_pos h2]
      exact ih h.2
    · simp only [alistErase, if_neg h2, List.map_cons, List.nodup_cons]
      exact ⟨fun hmem => h.1 (alistErase_keys_subset rest k hmem), ih h.2⟩

theorem alistKeysNodup_set {α : Type} (m : List (String × α)) (k : String) (v : α)
    (h : alistKeysNodup m) : alistKeysNodup (alistSet m k v) := by
  unfold alistSet alistKeysNodup
  simp only [List.map_cons, List.nodup_cons]
  constructor
  · intro hmem
    have hnone : alistLookup (alistErase m k) k = none := by
      rw [alistLookup_erase]
      simp
    exact (alistLookup_none_iff _ k).1 hnone hmem
  · exact alistKeysNodup_erase m k h

theorem liveMailboxes_set_fresh (m : List (String × Mailbox)) (requestId : String)
    (ch : Mailbox) (sub : String) (h : alistLookup m requestId = none) :
    liveMailboxes (alistSet m requestId ch) sub =
      liveMailboxes m sub + (if ch.sub = sub then 1 else 0) := by
  unfold alistSet
  rw [alistErase_of_lookup_none m requestId h]
  by_cases hc : ch.sub = sub <;>
    simp [liveMailboxes, List.filter_cons, hc, Nat.add_comm]

theorem liveMailboxes_erase (m : List (String × Mailbox)) (requestId : String)
    (ch : Mailbox) (sub : String) (hnd : alistKeysNodup m)
    (h : alistLookup m requestId = some ch) :
    liveMailboxes m sub =
      liveMailboxes (alistErase m requestId) sub + (if ch.sub = sub then 1 else 0) := by
  induction m with
  | nil => simp [alistLookup] at h
  | cons kv rest ih =>
    obtain ⟨k2, v⟩ := kv
    unfold alistKeysNodup at hnd
    simp only [List.map_cons, List.nodup_cons] at hnd
    by_cases h2 : k2 = requestId
    · subst h2
      simp [alistLookup] at h
      subst h
      have hrest : alistLookup rest k2 = none :=
        (alistLookup_none_iff rest k2).2 hnd.1
      simp only [alistErase, if_pos rfl]
      rw [alistErase_of_lookup_none rest k2 hrest]
      by_cases hc : v.sub = sub <;>
        simp [liveMailboxes, List.filter_cons, hc, Nat.add_comm]
    · simp only [alistLookup, if_neg h2] at h
      have hrec := ih hnd.2 h
      by_cases hch2 : ch.sub = sub
      · rw [if_pos hch2] at hrec ⊢
        by_cases hv : v.sub = sub <;>
          simp only [liveMailboxes, alistErase, if_neg h2, List.filter_cons, hv,
            beq_self_eq_true, beq_iff_eq, if_true, if_false, List.length_cons,
            liveMailboxes] at hrec ⊢ <;>
          omega
      · rw [if_neg hch2] at hrec ⊢
        by_cases hv : v.sub = sub <;>
          simp only [liveMailboxes, alistErase, if_neg h2, List.filter_cons, hv,
            beq_self_eq_true, beq_iff_eq, if_true, if_false, List.length_cons,
            liveMailboxes] at hrec ⊢ <;>
          omega

theorem rmInv_reg (s : InMemoryRequestManager) (requestId subdomain : String)
    (hinv : rmInv s) (hfresh : alistLookup s.requestChannelMap requestId = none) :
    rmInv (RegisterRequest s requestId subdomain).2 := by
  obtain ⟨hnd, hc⟩ := hinv
  unfold RegisterRequest
  by_cases hguard : s.maxPerTunnel ≤ countsGet s.requestCounts subdomain
  · simpa [hguard] using ⟨hnd, hc⟩
  · simp only [if_neg hguard]
    refine ⟨alistKeysNodup_set _ _ _ hnd, fun sub => ?_⟩
    rw [countsGet_set, liveMailboxes_set_fresh _ _ _ _ hfresh]
    by_cases hsub : sub = subdomain
    · subst hsub
      have h2 := (hc sub).2
      simp only [if_pos rfl]
      constructor
      · omega
      · push_cast
        omega
    · have h1 := (hc sub).1
      have h2 := (hc sub).2
      simp only [if_neg hsub, if_neg (fun h : (Mailbox.mk 5 subdomain).sub = sub =>
        hsub (h.symm))]
      constructor
      · exact h1
      · push_cast
        omega

theorem rmInv_rem (s : InMemoryRequestManager) (requestId subdomain : String)
    (hinv : rmInv s)
    (hmatch : ∀ ch, alistLookup s.requestChannelMap requestId = some ch →
      ch.sub = subdomain) :
    rmInv (RemoveRequest s requestId subdomain) := by
  obtain ⟨hnd, hc⟩ := hinv
  unfold RemoveRequest
  cases hch : alistLookup s.requestChannelMap requestId with
  | none => exact ⟨hnd, hc⟩
  | some ch =>
    have hchsub : ch.sub = subdomain := hmatch ch hch
    have hlive := liveMailboxes_erase s.requestChannelMap requestId ch subdomain hnd hch
    rw [if_pos hchsub] at hlive
    have hcsub := (hc subdomain).2
    have hcpos : 0 < countsGet s.requestCounts subdomain := by
      rw [hcsub, hlive]
      push_cast
      omega
    simp only [if_pos hcpos]
    have hnew : countsGet (alistSet s.requestCounts subdomain
        (countsGet s.requestCounts subdomain - 1)) subdomain =
        countsGet s.requestCounts subdomain - 1 := by
      rw [countsGet_set]
      simp
    refine ?_
    by_cases hzero : countsGet s.requestCounts subdomain - 1 = 0
    · rw [hnew, if_pos hzero]
      refine ⟨alistKeysNodup_erase _ _ hnd, fun sub => ?_⟩
      rw [countsGet_erase]
      by_cases hsub : sub = subdomain
      · subst hsub
        simp only [if_pos rfl]
        constructor
        · have := (hc sub).1
          have hcn : (0 : Int) ≤ countsGet s.requestCounts sub := by
            rw [(hc sub).2]
            positivity
          omega
        · rw [hlive] at hcsub
          push_cast at hcsub ⊢
          omega
      · simp only [if_neg hsub]
        rw [countsGet_set, if_neg hsub]
        have hlive2 := liveMailboxes_erase s.requestChannelMap requestId ch sub hnd hch
        rw [if_neg (fun h : ch.sub = sub => hsub (h ▸ hchsub ▸ rfl))] at hlive2
        constructor
        · exact (hc sub).1
        · rw [(hc sub).2, hlive2]
          push_cast
          omega
    · rw [hnew, if_neg hzero]
      refine ⟨alistKeysNodup_erase _ _ hnd, fun sub => ?_⟩
      rw [countsGet_set]
      by_cases hsub : sub = subdomain
      · subst hsub
        simp only [if_pos rfl]
        constructor
        · have := (hc sub).1
          omega
        · rw [hlive] at hcsub
          push_cast at hcsub ⊢
          omega
      · simp only [if_neg hsub]
        have hlive2 := liveMailboxes_erase s.requestChannelMap requestId ch sub hnd hch
        rw [if_neg (fun h : ch.sub = sub => hsub (h ▸ hchsub ▸ rfl))] at hlive2
        constructor
        · exact (hc sub).1
        · rw [(hc sub).2, hlive2]
          push_cast
          omega

theorem RegisterRequest_maxPerTunnel (s : InMemoryRequestManager)
    (requestId subdomain : String) :
    ((RegisterRequest s requestId subdomain).2).maxPerTunnel = s.maxPerTunnel := by
  unfold RegisterRequest
  split <;> rfl

theorem RemoveRequest_maxPerTunnel (s : InMemoryRequestManager)
    (requestId subdomain : String) :
    (RemoveRequest s requestId subdomain).maxPerTunnel = s.maxPerTunnel := by
  unfold RemoveRequest
  cases alistLookup s.requestChannelMap requestId <;> rfl

theorem rmStep_maxPerTunnel (s : InMemoryRequestManager) (op : RMOp) :
    (rmStep s op).maxPerTunnel = s.maxPerTunnel := by
  cases op with
  | reg requestId subdomain => exact RegisterRequest_maxPerTunnel s requestId subdomain
  | rem requestId subdomain => exact RemoveRequest_maxPerTunnel s requestId subdomain

theorem rmInv_step (s : InMemoryRequestManager) (op : RMOp)
    (hinv : rmInv s) (hok : rmOpOk s op = true) : rmInv (rmStep s op) := by
  cases op with
  | reg requestId subdomain =>
    have hfresh : alistLookup s.requestChannelMap requestId = none := by
      simpa [rmOpOk, Option.isNone_iff_eq_none] using hok
    exact rmInv_reg s requestId subdomain hinv hfresh
  | rem requestId subdomain =>
    refine rmInv_rem s requestId subdomain hinv ?_
    intro ch hch
    simpa [rmOpOk, hch] using hok

theorem rmInv_run (ops : List RMOp) : ∀ (s : InMemoryRequestManager),
    rmInv s → rmTraceOk rmOpOk s ops = true → rmInv (rmRun s ops) := by
  induction ops with
  | nil =>
    intro s h _
    exact h
  | cons op rest ih =>
    intro s h hok
    simp only [rmTraceOk, Bool.and_eq_true] at hok
    exact ih (rmStep s op) (rmInv_step s op h hok.1) hok.2

theorem rmRun_maxPerTunnel (ops : List RMOp) :
    ∀ s, (rmRun s ops).maxPerTunnel = s.maxPerTunnel := by
  induction ops with
  | nil =>
    intro s
    rfl
  | cons op rest ih =>
    intro s
    rw [rmRun, ih, rmStep_maxPerTunnel]

theorem rmInv_new (maxPerTunnel : Int) (h : 0 ≤ maxPerTunnel) :
    rmInv (NewInMemoryRequestManager maxPerTunnel) := by
  refine ⟨by simp [alistKeysNodup, NewInMemoryRequestManager], fun sub => ?_⟩
  simp [NewInMemoryRequestManager, countsGet, alistLookup, liveMailboxes, h]

/-- C1 (amended): for every sequence of RegisterRequest/RemoveRequest calls on
the Request Manager in which each RegisterRequest passes a request id with no
live mailbox and each RemoveRequest passes the same subdomain as the matching
RegisterRequest, every per-subdomain active-request counter stays between 0
and the (nonnegative) configured maxPerTunnel ceiling inclusive, and equals
the number of live mailboxes registered under that subdomain. -/
theorem c1_request_counts_invariant (maxPerTunnel : Int) (ops : List RMOp)
    (hmax : 0 ≤ maxPerTunnel)
    (hok : rmTraceOk rmOpOk (NewInMemoryRequestManager maxPerTunnel) ops = true)
    (sub : String) :
    0 ≤ countsGet (rmRun (NewInMemoryRequestManager maxPerTunnel) ops).requestCounts sub ∧
    countsGet (rmRun (NewInMemoryRequestManager maxPerTunnel) ops).requestCounts sub ≤
      maxPerTunnel ∧
    countsGet (rmRun (NewInMemoryRequestManager maxPerTunnel) ops).requestCounts sub =
      (liveMailboxes (rmRun (NewInMemoryRequestManager maxPerTunnel) ops).requestChannelMap
        sub : Int) := by
  obtain ⟨hnd, hc⟩ := rmInv_run ops _ (rmInv_new maxPerTunnel hmax) hok
  have h1 := (hc sub).1
  have h2 := (hc sub).2
  rw [rmRun_maxPerTunnel ops (NewInMemoryRequestManager maxPerTunnel)] at h1
  exact ⟨by rw [h2]; exact Int.natCast_nonneg _, h1, h2⟩

/-- C1 counterexample: with the ceiling at 2, registering the same request id
"a" twice under subdomain "s" (a trace in which every RemoveRequest —
vacuously — passes the matching subdomain, as the claim requires) leaves the
counter for "s" at 2 while only 1 live mailbox is registered under "s" (and
no channel was ever closed), refuting "the counter equals the number of live
mailboxes registered under that subdomain". -/
theorem c1_duplicate_id_counterexample :
    rmTraceOk remMatchOk (NewInMemoryRequestManager 2)
      [RMOp.reg "a" "s", RMOp.reg "a" "s"] = true ∧
    (rmRun (NewInMemoryRequestManager 2)
      [RMOp.reg "a" "s", RMOp.reg "a" "s"]).closedChannels = [] ∧
    countsGet (rmRun (NewInMemoryRequestManager 2)
      [RMOp.reg "a" "s", RMOp.reg "a" "s"]).requestCounts "s" = 2 ∧
    liveMailboxes (rmRun (NewInMemoryRequestManager 2)
      [RMOp.reg "a" "s", RMOp.reg "a" "s"]).requestChannelMap "s" = 1 := by
  decide

/-- C1 witness: a concrete register/remove trace satisfying the side
conditions, evaluated through the theorem. -/
theorem c1_request_counts_invariant_witness :
    0 ≤ countsGet (rmRun (NewInMemoryRequestManager 2)
      [RMOp.reg "a" "s", RMOp.rem "a" "s"]).requestCounts "s" ∧
    countsGet (rmRun (NewInMemoryRequestManager 2)
      [RMOp.reg "a" "s", RMOp.rem "a" "s"]).requestCounts "s" ≤ 2 ∧
    countsGet (rmRun (NewInMemoryRequestManager 2)
      [RMOp.reg "a" "s", RMOp.rem "a" "s"]).requestCounts "s" =
      (liveMailboxes (rmRun (NewInMemoryRequestManager 2)
        [RMOp.reg "a" "s", RMOp.rem "a" "s"]).requestChannelMap "s" : Int) :=
  c1_request_counts_invariant 2 [RMOp.reg "a" "s", RMOp.rem "a" "s"]
    (by decide) (by decide) "s"

/-- C8: a successful RegisterRequest(id, sub) followed by
RemoveRequest(id, sub) returns the subdomain's active count to its previous
(nonnegative) value, and when that value is zero the subdomain's entry is
absent from the counts map. -/
theorem c8_register_remove_roundtrip (s : InMemoryRequestManager)
    (requestId subdomain : String) (ch : Mailbox) (s2 : InMemoryRequestManager)
    (h0 : 0 ≤ countsGet s.requestCounts subdomain)
    (hreg : RegisterRequest s requestId subdomain = (some ch, s2)) :
    countsGet (RemoveRequest s2 requestId subdomain).requestCounts subdomain =
      countsGet s.requestCounts subdomain ∧
    (countsGet s.requestCounts subdomain = 0 →
      alistLookup (RemoveRequest s2 requestId subdomain).requestCounts subdomain =
        none) := by
  unfold RegisterRequest at hreg
  by_cases hguard : s.maxPerTunnel ≤ countsGet s.requestCounts subdomain
  · rw [if_pos hguard] at hreg
    cases hreg
  · rw [if_neg hguard] at hreg
    simp only [Prod.mk.injEq, Option.some.injEq] at hreg
    obtain ⟨hch, hs2⟩ := hreg
    subst hs2
    have hlook : alistLookup (alistSet s.requestChannelMap requestId
        ⟨5, subdomain⟩) requestId = some (⟨5, subdomain⟩ : Mailbox) := by
      rw [alistLookup_set]
      simp
    unfold RemoveRequest
    simp only [hlook]
    have hc1 : countsGet (alistSet s.requestCounts subdomain
        (countsGet s.requestCounts subdomain + 1)) subdomain =
        countsGet s.requestCounts subdomain + 1 := by
      rw [countsGet_set]
      simp
    rw [hc1]
    rw [if_pos (by omega : (0 : Int) < countsGet s.requestCounts subdomain + 1)]
    have hc2 : countsGet (alistSet (alistSet s.requestCounts subdomain
        (countsGet s.requestCounts subdomain + 1)) subdomain
        (countsGet s.requestCounts subdomain + 1 - 1)) subdomain =
        countsGet s.requestCounts subdomain := by
      rw [countsGet_set]
      simp
    rw [hc2]
    by_cases hzero : countsGet s.requestCounts subdomain = 0
    · rw [if_pos hzero]
      constructor
      · rw [countsGet_erase]
        simp [hzero]
      · intro _
        rw [alistLookup_erase]
        simp
    · rw [if_neg hzero]
      exact ⟨hc2, fun hc0 => absurd hc0 hzero⟩

/-- C8 witness: concrete round trip from a fresh manager with ceiling 3. -/
theorem c8_register_remove_roundtrip_witness :
    countsGet (RemoveRequest
      ((RegisterRequest (NewInMemoryRequestManager 3) "a" "s").2) "a"
      "s").requestCounts "s" =
      countsGet (NewInMemoryRequestManager 3).requestCounts "s" ∧
    (countsGet (NewInMemoryRequestManager 3).requestCounts "s" = 0 →
      alistLookup (RemoveRequest
        ((RegisterRequest (NewInMemoryRequestManager 3) "a" "s").2) "a"
        "s").requestCounts "s" = none) :=
  c8_register_remove_roundtrip (NewInMemoryRequestManager 3) "a" "s"
    ⟨5, "s"⟩ ((RegisterRequest (NewInMemoryRequestManager 3) "a" "s").2)
    (by decide) (by decide)

/-- C10: RemoveRequest with a request id that has no registered mailbox
leaves the entire Request Manager state unchanged — no channel is closed, no
count is decremented, no map entry is removed. -/
theorem c10_remove_absent_id_noop (s : InMemoryRequestManager)
    (requestId subdomain : String)
    (h : alistLookup s.requestChannelMap requestId = none) :
    RemoveRequest s requestId subdomain = s := by
  unfold RemoveRequest
  rw [h]

/-- C10 witness. -/
theorem c10_remove_absent_id_noop_witness :
    RemoveRequest (NewInMemoryRequestManager 5) "x" "s" =
      NewInMemoryRequestManager 5 :=
  c10_remove_absent_id_noop (NewInMemoryRequestManager 5) "x" "s" rfl

theorem alistErase_length_le {α : Type} (m : List (String × α)) (k : String) :
    (alistErase m k).length ≤ m.length := by
  induction m with
  | nil => simp [alistErase]
  | cons kv rest ih =>
    obtain ⟨k2, v⟩ := kv
    by_cases h2 : k2 = k
    · simp only [alistErase, if_pos h2, List.length_cons]
      omega
    · simp only [alistErase, if_neg h2, List.length_cons]
      omega

theorem RegisterConnection_maxTunnels (s : InMemoryConnectionStore)
    (subdomainKey : String) (conn : Nat) :
    ((RegisterConnection s subdomainKey conn).2).maxTunnels = s.maxTunnels := by
  unfold RegisterConnection
  split <;> rfl

theorem csStep_maxTunnels (s : InMemoryConnectionStore) (op : CSOp) :
    (csStep s op).maxTunnels = s.maxTunnels := by
  cases op with
  | reg subdomainKey conn => exact RegisterConnection_maxTunnels s subdomainKey conn
  | rem subdomainKey => rfl

theorem csStep_bound (s : InMemoryConnectionStore) (op : CSOp)
    (h : s.connMap.length ≤ s.maxTunnels) :
    (csStep s op).connMap.length ≤ (csStep s op).maxTunnels := by
  rw [csStep_maxTunnels]
  cases op with
  | reg subdomainKey conn =>
    show ((RegisterConnection s subdomainKey conn).2).connMap.length ≤ _
    unfold RegisterConnection
    by_cases hfull : s.connMap.length = s.maxTunnels
    · simp [hfull]
    · simp only [if_neg hfull]
      have := alistErase_length_le s.connMap subdomainKey
      simp only [alistSet, List.length_cons]
      omega
  | rem subdomainKey =>
    show (RemoveConnection s subdomainKey).connMap.length ≤ _
    unfold RemoveConnection
    have := alistErase_length_le s.connMap subdomainKey
    simp only
    omega

theorem csRun_bound (ops : List CSOp) : ∀ (s : InMemoryConnectionStore),
    s.connMap.length ≤ s.maxTunnels →
    (csRun s ops).connMap.length ≤ (csRun s ops).maxTunnels := by
  induction ops with
  | nil =>
    intro s h
    exact h
  | cons op rest ih =>
    intro s h
    exact ih (csStep s op) (csStep_bound s op h)

theorem csRun_maxTunnels (ops : List CSOp) :
    ∀ s, (csRun s ops).maxTunnels = s.maxTunnels := by
  induction ops with
  | nil =>
    intro s
    rfl
  | cons op rest ih =>
    intro s
    rw [csRun, ih, csStep_maxTunnels]

/-- C2: for every sequence of register and remove calls on the Connection
Store the number of stored tunnel entries never exceeds the configured
ceiling, and register fails (with `ErrMaxTunnelsReached`, modelled as `none`)
whenever the live count equals that ceiling. -/
theorem c2_connection_store_capacity (maxTunnels : Nat) (ops : List CSOp) :
    (csRun (NewInMemoryConnectionStore maxTunnels) ops).connMap.length ≤ maxTunnels ∧
    (∀ (s : InMemoryConnectionStore) (subdomainKey : String) (conn : Nat),
      s.connMap.length = s.maxTunnels →
      (RegisterConnection s subdomainKey conn).1 = none) := by
  constructor
  · have h0 : (NewInMemoryConnectionStore maxTunnels).connMap.length ≤
        (NewInMemoryConnectionStore maxTunnels).maxTunnels := by
      simp [NewInMemoryConnectionStore]
    have := csRun_bound ops (NewInMemoryConnectionStore maxTunnels) h0
    rwa [csRun_maxTunnels ops (NewInMemoryConnectionStore maxTunnels)] at this
  · intro s subdomainKey conn hfull
    unfold RegisterConnection
    rw [if_pos hfull]

/-- C2 witness: a concrete trace at ceiling 1, and a register call rejected
at capacity. -/
theorem c2_connection_store_capacity_witness :
    (csRun (NewInMemoryConnectionStore 1)
      [CSOp.reg "aaaa1111" 0, CSOp.reg "bbbb2222" 1]).connMap.length ≤ 1 ∧
    (RegisterConnection (NewInMemoryConnectionStore 0) "cccc3333" 7).1 = none :=
  ⟨(c2_connection_store_capacity 1 [CSOp.reg "aaaa1111" 0, CSOp.reg "bbbb2222" 1]).1,
    (c2_connection_store_capacity 0 []).2 (NewInMemoryConnectionStore 0)
      "cccc3333" 7 (by decide)⟩

theorem fragScan_wprStream (evs : List Ev) :
    fragScan false (wprStream evs) = true := by
  induction evs with
  | nil => rfl
  | cons ev rest ih =>
    cases ev with
    | timeout => rfl
    | closed => rfl
    | msg m =>
      by_cases hd : m.done <;> simp [wprStream, fragScan, hd, ih]

theorem fragScan_headers (hs : List (String × String)) (rest : List Act) :
    fragScan true ((hs.map fun kv => Act.setHeader kv.1 kv.2) ++ rest) =
      fragScan true rest := by
  induction hs with
  | nil => rfl
  | cons kv tl ih => simp [fragScan, ih]

theorem fragScan_first_block (m : Message) (tail : List Act)
    (htail : fragScan false tail = true) :
    fragScan false (Act.read m :: (m.headers.map fun kv => Act.setHeader kv.1 kv.2) ++
      Act.writeStatus m.status :: Act.write m.body :: Act.flush :: tail) = true := by
  have h1 : fragScan false (Act.read m ::
      (m.headers.map fun kv => Act.setHeader kv.1 kv.2) ++
      Act.writeStatus m.status :: Act.write m.body :: Act.flush :: tail) =
      fragScan true ((m.headers.map fun kv => Act.setHeader kv.1 kv.2) ++
      Act.writeStatus m.status :: Act.write m.body :: Act.flush :: tail) := rfl
  rw [h1, fragScan_headers]
  exact htail

/-- C3: for every public request whose mailbox yields a first fragment, both
generations of the handler write that fragment's body and flush before any
further read from the mailbox, and each subsequent fragment is likewise
written and flushed before the next read (the `fragScan` trace predicate). -/
theorem c3_early_flush (m : Message) (evs : List Ev) :
    fragReadsOk (writeProxiedResponse (Ev.msg m :: evs)).1 = true ∧
    fragReadsOk (handleRequestRespond (Ev.msg m :: evs)).1 = true := by
  unfold fragReadsOk
  constructor <;>
  · by_cases hd : m.done
    · simpa [writeProxiedResponse, handleRequestRespond, hd] using
        fragScan_first_block m [] rfl
    · simpa [writeProxiedResponse, handleRequestRespond, hd] using
        fragScan_first_block m (wprStream evs) (fragScan_wprStream evs)

/-- C4 counterexample: in the second-generation handler (src/unnamed/part_004
lines 387-395, cited by the claim), a mailbox closed before any fragment is
answered with HTTP 500 `Failed to get response from tunnel` — not a
502-class status. -/
theorem c4_closed_mailbox_http500_counterexample :
    handleRequestRespond [Ev.closed] =
      ([Act.readClosed], some (500, "Failed to get response from tunnel")) ∧
    (500 : Nat) ≠ 502 :=
  ⟨rfl, by decide⟩

/-- C4 (amended): when the mailbox is closed before any fragment, the
current (first-generation) handler fails with `TunnelNotRespondingError`,
surfaced through its `SendableHTTPError` interface as HTTP 502; the older
second-generation handler instead replies HTTP 500
`Failed to get response from tunnel`. -/
theorem c4_tunnel_not_responding_surface (evs evs2 : List Ev) :
    (writeProxiedResponse (Ev.closed :: evs)).2 = some WprErr.tunnelNotResponding ∧
    handleRequestSurface (writeProxiedResponse (Ev.closed :: evs)).2 =
      some (502, "Tunnel not responding") ∧
    (handleRequestRespond (Ev.closed :: evs2)).2 =
      some (500, "Failed to get response from tunnel") :=
  ⟨rfl, rfl, rfl⟩

theorem noStatusWritten_wprStream (evs : List Ev) :
    noStatusWritten (wprStream evs) = true := by
  induction evs with
  | nil => rfl
  | cons ev rest ih =>
    cases ev with
    | timeout => rfl
    | closed => rfl
    | msg m =>
      by_cases hd : m.done
      · simp [wprStream, noStatusWritten, hd]
      · simp [wprStream, noStatusWritten, hd]
        simpa [noStatusWritten] using ih

/-- C5: a timeout while waiting for the first fragment makes the handler
reply HTTP 504 with body `Timeout waiting for response from tunnel` (both in
the second-generation handler directly and through the first generation's
`TimeoutError` surface), while a timeout waiting for a subsequent fragment
terminates the streaming loop immediately with no status ever written by
that loop and no `http.Error` from the handler. -/
theorem c5_timeout_behavior (evs evs2 evs3 : List Ev) (m : Message)
    (rest : List Ev) :
    handleRequestRespond (Ev.timeout :: evs) =
      ([Act.timedOut], some (504, "Timeout waiting for response from tunnel")) ∧
    handleRequestSurface (writeProxiedResponse (Ev.timeout :: evs2)).2 =
      some (504, "Timeout waiting for response from tunnel") ∧
    (handleRequestRespond (Ev.msg m :: evs3)).2 = none ∧
    wprStream (Ev.timeout :: rest) = [Act.timedOut] ∧
    noStatusWritten (wprStream evs3) = true :=
  ⟨rfl, rfl, rfl, rfl, noStatusWritten_wprStream evs3⟩

/-- C6: on local HTTP dispatch failure the Client Request Forwarder emits
exactly one response fragment, with status 502 (http.StatusBadGateway), a
body describing the failure, and without `done=true`. -/
theorem c6_dispatch_failure_fragment (requestMsg : Message) (e : String) :
    sendResponse requestMsg (DispatchResult.fail e) =
      [{ type := "response", id := requestMsg.id, status := 502,
         body := "Failed to reach local app: " ++ e, done := false }] :=
  rfl

/-- C7 counterexample: an origin stream that yields `"data"` and then a
zero-byte EOF produces exactly one fragment — `done=false` — and no terminal
`done=true` fragment at all, refuting "an eof with zero bytes after previous
non-empty fragments produces a terminal empty fragment with done=true"; and
a stream whose first read returns zero bytes without error does emit a
(status-bearing, empty-body) fragment with `done=false`, refuting the
unqualified "a read that returns zero bytes with done=false produces no
fragment". -/
theorem c7_no_terminal_done_fragment :
    sendResponse { id := "r" }
      (DispatchResult.ok ⟨200, [], [ReadRes.ok "data", ReadRes.eof ""]⟩) =
      [{ type := "response", id := "r", body := "data", done := false,
         status := 200, headers := [] }] ∧
    sendResponse { id := "r2" }
      (DispatchResult.ok ⟨200, [], [ReadRes.ok "", ReadRes.eof ""]⟩) =
      [{ type := "response", id := "r2", body := "", done := false,
         status := 200, headers := [] }] := by
  decide

/-- C7 (amended): a read after the first fragment that returns zero bytes
without error produces no fragment, and a read that reaches eof with zero
bytes after previous fragments likewise produces no fragment — the stream
ends without any terminal `done=true` fragment in that case; a first read of
zero bytes without error emits the initial status/header fragment with empty
body and `done=false`. -/
theorem c7_zero_byte_reads (res : LocalResponse) (reqId : String)
    (rest : List ReadRes) :
    readLoop res reqId false (ReadRes.ok "" :: rest) =
      readLoop res reqId false rest ∧
    readLoop res reqId false (ReadRes.eof "" :: rest) = [] ∧
    readLoop res reqId true (ReadRes.ok "" :: rest) =
      { type := "response", id := reqId, body := "", done := false,
        status := res.StatusCode, headers := res.Header } ::
        readLoop res reqId false rest := by
  refine ⟨by simp [readLoop], by simp [readLoop], by simp [readLoop]⟩

/-- C9: a Host header with fewer than two dot-separated labels is answered
with HTTP 400 `Invalid subdomain`; otherwise the first label is used as the
subdomain. -/
theorem c9_invalid_subdomain (host : String) :
    ((splitOnChar '.' host.toList).length < 2 →
      handleRequestSubdomain host = Sum.inl (400, "Invalid subdomain")) ∧
    (∀ (p : List Char) (rest : List (List Char)),
      splitOnChar '.' host.toList = p :: rest → rest ≠ [] →
      handleRequestSubdomain host = Sum.inr (String.mk p)) := by
  constructor
  · intro hlen
    unfold handleRequestSubdomain ExtractAssignedSubdomain
    cases hsplit : splitOnChar '.' host.toList with
    | nil => rfl
    | cons p1 tl =>
      cases tl with
      | nil => rfl
      | cons p2 tl2 =>
        rw [hsplit] at hlen
        simp only [List.length_cons] at hlen
        omega

  · intro p rest hsplit hne
    unfold handleRequestSubdomain ExtractAssignedSubdomain
    rw [hsplit]
    cases rest with
    | nil => exact absurd rfl hne
    | cons p2 tl2 => rfl

/-- C9 witness: `localhost` is rejected with 400 `Invalid subdomain`;
`sub.example.com` yields the subdomain `sub`. -/
theorem c9_invalid_subdomain_witness :
    handleRequestSubdomain "localhost" = Sum.inl (400, "Invalid subdomain") ∧
    handleRequestSubdomain "sub.example.com" = Sum.inr "sub" :=
  ⟨(c9_invalid_subdomain "localhost").1 (by decide),
    (c9_invalid_subdomain "sub.example.com").2 "sub".toList
      ["example".toList, "com".toList] (by decide) (by decide)⟩

end Iskandar
